import Mathlib

/-!
# CodeLens — shallow embedding of the UI comparison / polling / gateway logic

This file embeds, in Lean, the parts of the CodeLens repository that the
verified claims are about:

* `AnalysisComparePage` (src/pages/AnalysisComparePage.jsx): the
  language-distribution diff (`compareLanguages`), the age-difference helper
  (`getAgeDifference`), the file-summaries set operations (common / new /
  removed files) and the ids guard of `fetchAnalyses`;
* `LanguageDistributionChart` (CodeDistribution.jsx): total-file sum and the
  tooltip / primary-language percentage formulas;
* `AnalysisProgress` (AnalysisProgress.jsx) and the `useAnalysis` hook
  (useAnalysis.js): the status polling loops and the status→display map;
* the API gateway route for `/api/v1/source-code` (sourceCode.ts): the
  proxy path resolver;
* the web UI axios client (utils/api.js): every endpoint and its timeout;
* `AnalysisHistoryPage` (AnalysisHistoryPage.jsx): the compare-selection
  toggle and the compare navigation guard.

Modelling conventions:
* JavaScript objects used as string-keyed maps become association lists
  (`List (String × β)`); key enumeration order is insertion order, and a JS
  `Set` accumulating keys becomes a fold that appends unseen elements.
* JS numbers holding file counts are `Nat`; differences of counts are `Int`;
  the results of `/` and `.toFixed(1)` are `ℚ` (exact rationals standing for
  the JS doubles, with `toFixed(1)` as round-half-up to one decimal).
* A missing object or field (`analysis.code?.language_distribution` being
  `undefined`) is `Option.none`; the JS `x || 0` default becomes `getD 0`.
  A `file_count` that is missing behaves exactly like `0` in all of the code
  modelled here, so it is a plain `Nat`.
* URLs handled by the gateway path resolver are character lists, so that the
  anchored-regex prefix strip is the literal prefix strip on lists.
-/

/-- An analysis result document, as consumed by the compare page.
`created_at` is the epoch-milliseconds value of the parsed `created_at`
date string; `language_distribution` and `file_summaries` are the optional
maps under `analysis.code`. -/
structure AnalysisDoc where
  created_at : Int
  file_count : Nat
  language_distribution : Option (List (String × Nat))
  file_summaries : Option (List (String × String))

/-- One row of the language-comparison table returned by `compareLanguages`:
`counts` is the pair of per-analysis file counts, `percentages` the pair of
rendered percentages, `diff` is `counts.2 - counts.1`. -/
structure LangComparison where
  language : String
  counts : Nat × Nat
  percentages : ℚ × ℚ
  diff : Int
  deriving DecidableEq

/-- `analysis.code?.language_distribution?.[language] || 0`. -/
def langCount (d : AnalysisDoc) (lang : String) : Nat :=
  match d.language_distribution with
  | none => 0
  | some m => (m.lookup lang).getD 0

/-- The keys of `analysis.code?.language_distribution`, in insertion order
(empty when the map is absent). -/
def langKeys (d : AnalysisDoc) : List String :=
  (d.language_distribution.getD []).map Prod.fst

/-- One step of building a JS `Set` as a duplicate-free list: `add` keeps the
first insertion and ignores repeats. -/
def jsSetAdd (acc : List String) (x : String) : List String :=
  if x ∈ acc then acc else acc ++ [x]

/-- The JS `Set` accumulated from a list, as a duplicate-free list in first
insertion order. -/
def jsSetOfList (l : List String) : List String :=
  l.foldl jsSetAdd []

/-- The `Set` of languages built by `compareLanguages`: keys of both
documents' `language_distribution` maps, deduplicated. -/
def unionLangs (d1 d2 : AnalysisDoc) : List String :=
  jsSetOfList (langKeys d1 ++ langKeys d2)

/-- JS `Number.prototype.toFixed(1)` on an exact rational: round half up to
one decimal place (the rendered numeric value). -/
def toFixed1 (q : ℚ) : ℚ :=
  (round (q * 10) : ℚ) / 10

/-- The percentage computed for one language of one analysis inside
`compareLanguages`: `0` when the language count or `file_count` is missing
or zero (the JS truthiness guard), otherwise
`((count / file_count) * 100).toFixed(1)`. -/
def percentage (d : AnalysisDoc) (lang : String) : ℚ :=
  if langCount d lang = 0 ∨ d.file_count = 0 then 0
  else toFixed1 (((langCount d lang : ℚ) / (d.file_count : ℚ)) * 100)

/-- The entry `compareLanguages` builds for one language. -/
def compareEntry (d1 d2 : AnalysisDoc) (lang : String) : LangComparison :=
  { language := lang
    counts := (langCount d1 lang, langCount d2 lang)
    percentages := (percentage d1 lang, percentage d2 lang)
    diff := (langCount d2 lang : Int) - (langCount d1 lang : Int) }

/-- The order the `compareLanguages` sort comparator realises: strictly
larger absolute delta first; on equal absolute delta, larger first-analysis
count first. -/
def langCmpLE (a b : LangComparison) : Prop :=
  b.diff.natAbs < a.diff.natAbs ∨
    (a.diff.natAbs = b.diff.natAbs ∧ b.counts.1 ≤ a.counts.1)

instance : DecidableRel langCmpLE := fun a b => by
  unfold langCmpLE; exact inferInstance

instance : IsTotal LangComparison langCmpLE :=
  ⟨fun a b => by unfold langCmpLE; omega⟩

instance : IsTrans LangComparison langCmpLE :=
  ⟨fun a b c hab hbc => by unfold langCmpLE at hab hbc ⊢; omega⟩

/-- `compareLanguages` from AnalysisComparePage.jsx: empty unless exactly two
analyses are loaded; otherwise one entry per language of either
distribution, sorted by the comparator (absolute delta descending, ties by
first count descending; the sort is stable, as ES2019 requires). -/
def compareLanguages (analyses : List AnalysisDoc) : List LangComparison :=
  match analyses with
  | [d1, d2] =>
      List.insertionSort langCmpLE ((unionLangs d1 d2).map (compareEntry d1 d2))
  | _ => []

/-- `getAgeDifference` from AnalysisComparePage.jsx: `null` unless exactly
two analyses are loaded, otherwise the `"N day(s) M hour(s)"` /
`"M hour(s)"` string built from the absolute created_at difference. -/
def getAgeDifference (analyses : List AnalysisDoc) : Option String :=
  match analyses with
  | [d1, d2] =>
      let diffTime : Nat := (d2.created_at - d1.created_at).natAbs
      let diffDays : Nat := diffTime / (1000 * 60 * 60 * 24)
      let diffHours : Nat := (diffTime % (1000 * 60 * 60 * 24)) / (1000 * 60 * 60)
      let dayTag : String := if diffDays ≠ 1 then "s" else ""
      let hourTag : String := if diffHours ≠ 1 then "s" else ""
      if diffDays > 0 then
        some (toString diffDays ++ " day" ++ dayTag ++ " " ++
              toString diffHours ++ " hour" ++ hourTag)
      else
        some (toString diffHours ++ " hour" ++ hourTag)
  | _ => none

/-- The guard at the top of `fetchAnalyses` on the compare page: with a
number of ids other than two the error `'Please select two analyses to
compare'` is reported and nothing is fetched; with exactly two the two ids
are fetched. -/
def fetchAnalysesDecision (analysisIds : List String) : Except String (List String) :=
  if analysisIds.length ≠ 2 then
    Except.error "Please select two analyses to compare"
  else
    Except.ok analysisIds

/- ### Association-list lookup facts used throughout -/

theorem lookup_some_mem {β : Type} {l : List (String × β)} {f : String} {v : β}
    (h : l.lookup f = some v) : (f, v) ∈ l := by
  induction l with
  | nil => simp [List.lookup] at h
  | cons p rest ih =>
      obtain ⟨a, b⟩ := p
      by_cases hf : f = a
      · subst hf
        simp [List.lookup] at h
        subst h
        exact List.mem_cons_self _ _
      · have hb : (f == a) = false := by simp [hf]
        simp [List.lookup, hb] at h
        exact List.mem_cons_of_mem _ (ih h)

theorem lookup_eq_none_iff {β : Type} (l : List (String × β)) (f : String) :
    l.lookup f = none ↔ f ∉ l.map Prod.fst := by
  induction l with
  | nil => simp [List.lookup]
  | cons p rest ih =>
      obtain ⟨a, b⟩ := p
      by_cases hf : f = a
      · subst hf
        simp [List.lookup]
      · have hb : (f == a) = false := by simp [hf]
        simp [List.lookup, hb, ih, hf]

/- ### File-summary set operations of the compare page (Code Quality section) -/

/-- `analysis.code?.file_summaries`, or the empty map when absent. -/
def fsEntries (d : AnalysisDoc) : List (String × String) :=
  d.file_summaries.getD []

/-- `Object.keys(analyses[i].code?.file_summaries || {})`. -/
def fsKeys (d : AnalysisDoc) : List String :=
  (fsEntries d).map Prod.fst

/-- JS truthiness of `d.code?.file_summaries?.[f]`: the key is present and
its value is a non-empty string. -/
def truthySummary (d : AnalysisDoc) (f : String) : Bool :=
  match (fsEntries d).lookup f with
  | some s => s != ""
  | none => false

/-- The common-files list of the Code Quality section: keys of the first
document filtered by truthiness of the second document's summary. -/
def commonFiles (d1 d2 : AnalysisDoc) : List String :=
  (fsKeys d1).filter (fun f => truthySummary d2 f)

/-- The 'New Files' list: keys of the second document whose summary in the
first document is falsy. -/
def newFiles (d1 d2 : AnalysisDoc) : List String :=
  (fsKeys d2).filter (fun f => !truthySummary d1 f)

/-- The 'Removed Files' list: keys of the first document whose summary in
the second document is falsy. -/
def removedFiles (d1 d2 : AnalysisDoc) : List String :=
  (fsKeys d1).filter (fun f => !truthySummary d2 f)

/-- `.slice(0, 5)` applied to the common-files list before rendering. -/
def commonFilesDisplayed (d1 d2 : AnalysisDoc) : List String :=
  (commonFiles d1 d2).take 5

/-- `.slice(0, 6)` applied to the 'New Files' list before rendering. -/
def newFilesDisplayed (d1 d2 : AnalysisDoc) : List String :=
  (newFiles d1 d2).take 6

/-- `.slice(0, 6)` applied to the 'Removed Files' list before rendering. -/
def removedFilesDisplayed (d1 d2 : AnalysisDoc) : List String :=
  (removedFiles d1 d2).take 6

/- ### LanguageDistributionChart (CodeDistribution.jsx) -/

/-- `totalFiles`: the sum of all language counts of the distribution. -/
def chartTotalFiles (dist : List (String × Nat)) : Nat :=
  dist.foldl (fun acc p => acc + p.2) 0

/-- The percentage rendered by the chart tooltip for a slice with `value`
files: `((value / totalFiles) * 100).toFixed(1)`. -/
def chartTooltipPercentage (dist : List (String × Nat)) (value : Nat) : ℚ :=
  toFixed1 (((value : ℚ) / (chartTotalFiles dist : ℚ)) * 100)

/-- `chartData`: the distribution entries sorted by value descending. -/
def chartData (dist : List (String × Nat)) : List (String × Nat) :=
  List.insertionSort (fun a b => b.2 ≤ a.2) dist

/-- The 'Primary Language %' figure: the tooltip formula applied to the
largest slice, or `0` when there is no data. -/
def primaryLanguagePercentage (dist : List (String × Nat)) : ℚ :=
  match chartData dist with
  | [] => 0
  | x :: _ => chartTooltipPercentage dist x.2

/- ### Status polling (useAnalysis.js hook and AnalysisProgress.jsx) -/

/-- The polling interval default of `pollAnalysisStatus` in useAnalysis.js,
in milliseconds. -/
def hookPollIntervalDefault : Nat := 3000

/-- The `setInterval` period of the AnalysisProgress polling effect, in
milliseconds. -/
def componentPollInterval : Nat := 5000

/-- The terminal statuses at which both polling loops stop. -/
def isTerminalStatus (s : String) : Bool :=
  s == "completed" || s == "failed"

/-- The stop test of the hook's interval callback,
`status && (status.status === 'completed' || status.status === 'failed')`:
a falsy (absent) status never stops the loop. -/
def hookFetchTerminal : Option String → Bool
  | some s => isTerminalStatus s
  | none => false

/-- The sequence of statuses the hook's polling loop consumes from a given
oracle of fetched statuses: it polls one status per tick and stops right
after the first terminal one (clearing the interval), otherwise keeps
polling until the oracle is exhausted. Its length is the number of status
requests issued. -/
def hookPollTrace : List (Option String) → List (Option String)
  | [] => []
  | s :: rest => if hookFetchTerminal s then [s] else s :: hookPollTrace rest

/-- The same consumption sequence for the AnalysisProgress effect, whose
fetched statuses are plain strings and whose stop test is
`status === 'completed' || status === 'failed'`. -/
def componentPollTrace : List String → List String
  | [] => []
  | s :: rest => if isTerminalStatus s then [s] else s :: componentPollTrace rest

/- ### AnalysisProgress status→display map -/

/-- `statusMap` from AnalysisProgress.jsx: status → (color, label). -/
def statusMap : List (String × (String × String)) :=
  [ ("pending", ("#F59E0B", "Pending"))
  , ("running", ("#3B82F6", "Running"))
  , ("analyzing_code", ("#3B82F6", "Analyzing Code"))
  , ("analyzing_dependencies", ("#3B82F6", "Analyzing Dependencies"))
  , ("analyzing_business", ("#3B82F6", "Analyzing Business Logic"))
  , ("analyzing_architecture", ("#3B82F6", "Analyzing Architecture"))
  , ("completed", ("#10B981", "Completed"))
  , ("failed", ("#EF4444", "Failed")) ]

/-- `getStatusInfo`: the mapped (color, label) pair, with the gray
'Unknown' fallback for unrecognized statuses. -/
def getStatusInfo (status : String) : String × String :=
  (statusMap.lookup status).getD ("#6B7280", "Unknown")

/- ### API gateway: the /api/v1/source-code proxy route (sourceCode.ts) -/

/-- An HTTP request as seen by the gateway route; `url` is the request URL
(path plus query string) as a character list. -/
structure HttpRequest where
  method : String
  url : List Char
  body : String

/-- The mount characters stripped by the route's anchored regex
`/^\/api\/v1\/source-code/`. -/
def sourceCodeMount : List Char :=
  "/api/v1/source-code".toList

/-- `proxyReqPathResolver` of the source-code route:
`req.url.replace(/^\/api\/v1\/source-code/, '')` — the anchored literal
regex deletes the mount at the start of the URL and leaves any other URL
unchanged. -/
def proxyReqPathResolver (url : List Char) : List Char :=
  if sourceCodeMount.isPrefixOf url then url.drop sourceCodeMount.length else url

/-- The request the gateway forwards to the source-code service: only the
URL is rewritten by the path resolver; method and body pass through
(`express-http-proxy` with no decorators configured). -/
def gatewayForward (r : HttpRequest) : HttpRequest :=
  { r with url := proxyReqPathResolver r.url }

/-- `loadConfig().sourceCodeServiceUrl` (config.ts): the environment value
when set, else the default base URL. -/
def sourceCodeServiceUrl (env : Option String) : String :=
  env.getD "http://source-code-service:8000"

/- ### Web UI axios client (utils/api.js) -/

/-- The `timeout` field of the axios instance config: 30000 ms. -/
def apiClientTimeout : Nat := 30000

/-- A request issued through the axios instance. -/
structure ApiRequest where
  method : String
  url : String
  timeout : Nat

/-- The endpoints exposed by `apiService`, with their path arguments. -/
inductive ApiEndpoint where
  | cloneRepository
  | getRepository (repositoryId : String)
  | listRepositories
  | deleteRepository (repositoryId : String)
  | uploadFiles
  | getProject (projectId : String)
  | listProjects
  | listProjectFiles (projectId : String)
  | getFileContent (projectId filePath : String)
  | deleteProject (projectId : String)
  | analyzeCode
  | startAnalysis (projectId : String) (fromRepository : Bool)
  | getAnalysisStatus (analysisId : String)
  | getAnalysisResults (analysisId : String)
  | getAnalysisSummary (analysisId : String)
  | listProjectAnalyses (projectId : String)
  | getLatestAnalysis (projectId : String) (analysisType : Option String)
  | getProjectAnalysisResults (projectId : String) (analysisId analysisType : Option String)
  | checkHealth

/-- The request each `apiService` function issues through the shared axios
instance `apiClient`: every one inherits the instance's timeout. -/
def apiServiceRequest : ApiEndpoint → ApiRequest
  | .cloneRepository =>
      ⟨"POST", "/github/repositories", apiClientTimeout⟩
  | .getRepository rid =>
      ⟨"GET", "/github/repositories/" ++ rid, apiClientTimeout⟩
  | .listRepositories =>
      ⟨"GET", "/github/repositories", apiClientTimeout⟩
  | .deleteRepository rid =>
      ⟨"DELETE", "/github/repositories/" ++ rid, apiClientTimeout⟩
  | .uploadFiles =>
      ⟨"POST", "/files/upload", apiClientTimeout⟩
  | .getProject pid =>
      ⟨"GET", "/files/projects/" ++ pid, apiClientTimeout⟩
  | .listProjects =>
      ⟨"GET", "/files/projects", apiClientTimeout⟩
  | .listProjectFiles pid =>
      ⟨"GET", "/files/projects/" ++ pid ++ "/files", apiClientTimeout⟩
  | .getFileContent pid fp =>
      ⟨"GET", "/files/projects/" ++ pid ++ "/files/" ++ fp, apiClientTimeout⟩
  | .deleteProject pid =>
      ⟨"DELETE", "/files/projects/" ++ pid, apiClientTimeout⟩
  | .analyzeCode =>
      ⟨"POST", "/analysis/code", apiClientTimeout⟩
  | .startAnalysis pid fromRepository =>
      ⟨"POST", "/analysis/projects/" ++ pid ++ "/analyze?from_repository=" ++
        (if fromRepository then "true" else "false"), apiClientTimeout⟩
  | .getAnalysisStatus aid =>
      ⟨"GET", "/analysis/analysis/" ++ aid, apiClientTimeout⟩
  | .getAnalysisResults aid =>
      ⟨"GET", "/analysis/analysis/" ++ aid ++ "/results", apiClientTimeout⟩
  | .getAnalysisSummary aid =>
      ⟨"GET", "/analysis/analysis/" ++ aid ++ "/summary", apiClientTimeout⟩
  | .listProjectAnalyses pid =>
      ⟨"GET", "/analysis/projects/" ++ pid ++ "/analysis", apiClientTimeout⟩
  | .getLatestAnalysis pid ty =>
      ⟨"GET", "/analysis/projects/" ++ pid ++ "/analysis/latest" ++
        (match ty with
         | some t => "?analysis_type=" ++ t
         | none => ""), apiClientTimeout⟩
  | .getProjectAnalysisResults pid aid ty =>
      ⟨"GET", "/analysis/projects/" ++ pid ++ "/analysis/results" ++
        (let params :=
          (match aid with | some a => ["analysis_id=" ++ a] | none => []) ++
          (match ty with | some t => ["analysis_type=" ++ t] | none => []);
         if params.length > 0 then "?" ++ String.intercalate "&" params else ""),
        apiClientTimeout⟩
  | .checkHealth =>
      ⟨"GET", "/health", apiClientTimeout⟩

/- ### AnalysisHistoryPage: comparison selection -/

/-- `toggleAnalysisSelection`: remove an already-selected id; append a new
id when fewer than two are selected; otherwise keep the newer selection
(`selectedAnalyses[1]`) and the new id. -/
def toggleAnalysisSelection (selected : List String) (analysisId : String) : List String :=
  if analysisId ∈ selected then
    selected.filter (fun i => i != analysisId)
  else if selected.length < 2 then
    selected ++ [analysisId]
  else
    [selected.getD 1 "", analysisId]

/-- `handleCompare`: navigate to the compare page only when exactly two
analyses are selected; otherwise do nothing. -/
def handleCompare (selected : List String) : Option String :=
  if selected.length = 2 then
    some ("/analysis/compare?ids=" ++ String.intercalate "," selected)
  else
    none

/- ### Concrete documents used by the witnesses -/

/-- A concrete analysis document (10 files: 6 JS, 4 Py). -/
def docW1 : AnalysisDoc :=
  ⟨0, 10, some [("JS", 6), ("Py", 4)], some [("a.js", "entry point"), ("b.py", "script")]⟩

/-- A concrete later analysis document (12 files: 5 JS, 7 Go). -/
def docW2 : AnalysisDoc :=
  ⟨93600000, 12, some [("JS", 5), ("Go", 7)], some [("a.js", "entry point"), ("c.go", "server")]⟩

/- ### Facts about the JS `Set` fold -/

theorem mem_foldl_jsSetAdd (l acc : List String) (x : String) :
    x ∈ l.foldl jsSetAdd acc ↔ x ∈ acc ∨ x ∈ l := by
  induction l generalizing acc with
  | nil => simp
  | cons a rest ih =>
      simp only [List.foldl_cons, ih, List.mem_cons]
      unfold jsSetAdd
      by_cases hx : a ∈ acc
      · rw [if_pos hx]
        constructor
        · rintro (h | h)
          · exact Or.inl h
          · exact Or.inr (Or.inr h)
        · rintro (h | rfl | h)
          · exact Or.inl h
          · exact Or.inl hx
          · exact Or.inr h
      · rw [if_neg hx]
        simp only [List.mem_append, List.mem_singleton]
        tauto

theorem nodup_foldl_jsSetAdd (l : List String) :
    ∀ acc : List String, acc.Nodup → (l.foldl jsSetAdd acc).Nodup := by
  induction l with
  | nil => exact fun _ h => h
  | cons a rest ih =>
      intro acc hacc
      simp only [List.foldl_cons]
      apply ih
      unfold jsSetAdd
      by_cases hx : a ∈ acc
      · rwa [if_pos hx]
      · rw [if_neg hx]
        simp [List.nodup_append, hacc, hx]

theorem unionLangs_nodup (d1 d2 : AnalysisDoc) : (unionLangs d1 d2).Nodup :=
  nodup_foldl_jsSetAdd _ _ (List.nodup_nil)

theorem mem_unionLangs (d1 d2 : AnalysisDoc) (x : String) :
    x ∈ unionLangs d1 d2 ↔ x ∈ langKeys d1 ∨ x ∈ langKeys d2 := by
  simp [unionLangs, jsSetOfList, mem_foldl_jsSetAdd]

/- ### Claims about compareLanguages -/

/-- Claim C1: for every pair of analysis documents, the list produced by
`compareLanguages` is sorted in non-increasing order of the absolute
difference between the two per-language file counts, and on equal absolute
difference the language with the larger file count in the first analysis
comes first. -/
theorem c1_compare_languages_sorted (d1 d2 : AnalysisDoc) :
    (compareLanguages [d1, d2]).Pairwise (fun a b =>
      b.diff.natAbs < a.diff.natAbs ∨
        (a.diff.natAbs = b.diff.natAbs ∧ b.counts.1 ≤ a.counts.1)) := by
  have hs : List.Sorted langCmpLE (compareLanguages [d1, d2]) := by
    show List.Sorted langCmpLE
      (List.insertionSort langCmpLE ((unionLangs d1 d2).map (compareEntry d1 d2)))
    exact List.sorted_insertionSort langCmpLE _
  exact List.Pairwise.imp (fun hab => hab) hs

/-- Claim C3: `compareLanguages` returns exactly one entry per language in
the union of the two documents' `language_distribution` key sets (a
permutation of the duplicate-free union list), and each entry's `diff` is
the second document's count minus the first's, with absent languages
counting 0; the `counts` pair records exactly those two lookups. -/
theorem c3_compare_languages_entries (d1 d2 : AnalysisDoc) :
    ((compareLanguages [d1, d2]).map LangComparison.language).Perm (unionLangs d1 d2) ∧
    (unionLangs d1 d2).Nodup ∧
    (∀ lang, lang ∈ unionLangs d1 d2 ↔ lang ∈ langKeys d1 ∨ lang ∈ langKeys d2) ∧
    (∀ e ∈ compareLanguages [d1, d2],
      e.diff = (langCount d2 e.language : Int) - (langCount d1 e.language : Int) ∧
      e.counts = (langCount d1 e.language, langCount d2 e.language)) := by
  have heq : compareLanguages [d1, d2] =
      List.insertionSort langCmpLE ((unionLangs d1 d2).map (compareEntry d1 d2)) := rfl
  refine ⟨?_, unionLangs_nodup d1 d2, mem_unionLangs d1 d2, ?_⟩
  · rw [heq]
    have hp := (List.perm_insertionSort langCmpLE
      ((unionLangs d1 d2).map (compareEntry d1 d2))).map LangComparison.language
    refine hp.trans ?_
    rw [List.map_map]
    rw [show (LangComparison.language ∘ compareEntry d1 d2) = id from rfl, List.map_id]
  · intro e he
    rw [heq] at he
    have hm := (List.perm_insertionSort langCmpLE _).mem_iff.mp he
    obtain ⟨lang, _, rfl⟩ := List.mem_map.mp hm
    exact ⟨rfl, rfl⟩

/-- Witness for C3 at the concrete documents `docW1`, `docW2` and the
language `"Go"`. -/
theorem c3_witness :
    (compareEntry docW1 docW2 "Go") ∈ compareLanguages [docW1, docW2] ∧
    (compareEntry docW1 docW2 "Go").diff =
      (langCount docW2 "Go" : Int) - (langCount docW1 "Go" : Int) := by
  have hmem : (compareEntry docW1 docW2 "Go") ∈ compareLanguages [docW1, docW2] := by
    have h1 : "Go" ∈ unionLangs docW1 docW2 := by decide
    exact (List.perm_insertionSort langCmpLE _).mem_iff.mpr
      (List.mem_map_of_mem (compareEntry docW1 docW2) h1)
  exact ⟨hmem, ((c3_compare_languages_entries docW1 docW2).2.2.2 _ hmem).1⟩

/- ### Claim C9: the exactly-two guards -/

/-- Claim C9: with a number of loaded analyses other than two,
`compareLanguages` returns the empty list and `getAgeDifference` returns
null; and when the `ids` query parameter does not contain exactly two ids,
no results are fetched and the error 'Please select two analyses to
compare' is reported instead. -/
theorem c9_two_analyses_guards :
    (∀ ids : List String, ids.length ≠ 2 →
      fetchAnalysesDecision ids = Except.error "Please select two analyses to compare") ∧
    (∀ ids : List String, ids.length = 2 → fetchAnalysesDecision ids = Except.ok ids) ∧
    (∀ docs : List AnalysisDoc, docs.length ≠ 2 → compareLanguages docs = []) ∧
    (∀ docs : List AnalysisDoc, docs.length ≠ 2 → getAgeDifference docs = none) := by
  refine ⟨fun ids h => by simp [fetchAnalysesDecision, h],
          fun ids h => by simp [fetchAnalysesDecision, h], ?_, ?_⟩
  · intro docs h
    cases docs with
    | nil => rfl
    | cons a t =>
        cases t with
        | nil => rfl
        | cons b t2 =>
            cases t2 with
            | nil => exact absurd rfl h
            | cons c t3 => rfl
  · intro docs h
    cases docs with
    | nil => rfl
    | cons a t =>
        cases t with
        | nil => rfl
        | cons b t2 =>
            cases t2 with
            | nil => exact absurd rfl h
            | cons c t3 => rfl

/-- Witness for C9 at a one-element ids list and a one-element document
list. -/
theorem c9_witness :
    fetchAnalysesDecision ["only-one"] =
      Except.error "Please select two analyses to compare" ∧
    compareLanguages [docW1] = [] ∧
    getAgeDifference [docW1] = none := by
  have h := c9_two_analyses_guards
  exact ⟨h.1 ["only-one"] (by decide), h.2.2.1 [docW1] (by simp),
         h.2.2.2 [docW1] (by simp)⟩

/- ### Claim C10: the status display map is total -/

/-- Claim C10: the status-to-display mapping is total: `statusMap` has
exactly the eight documented keys, and for every status string outside
them `getStatusInfo` returns the gray 'Unknown' pair, so an unrecognized
backend status never produces an undefined lookup. -/
theorem c10_status_info_total :
    statusMap.map Prod.fst =
      ["pending", "running", "analyzing_code", "analyzing_dependencies",
       "analyzing_business", "analyzing_architecture", "completed", "failed"] ∧
    (∀ s : String, s ∉ statusMap.map Prod.fst →
      getStatusInfo s = ("#6B7280", "Unknown")) := by
  refine ⟨rfl, fun s hs => ?_⟩
  unfold getStatusInfo
  rw [(lookup_eq_none_iff statusMap s).mpr hs]
  rfl

/-- Witness for C10 at the unrecognized status `"mystery_status"`. -/
theorem c10_witness :
    "mystery_status" ∉ statusMap.map Prod.fst ∧
    getStatusInfo "mystery_status" = ("#6B7280", "Unknown") :=
  ⟨by decide, c10_status_info_total.2 "mystery_status" (by decide)⟩

/- ### Claim C7: every apiService request carries the 30 s timeout -/

/-- Claim C7: every request issued through the web UI's API client — all
repository, project, analysis, and health endpoints — carries a request
timeout of 30000 milliseconds. -/
theorem c7_api_client_timeout (e : ApiEndpoint) :
    (apiServiceRequest e).timeout = 30000 := by
  cases e <;> rfl

/- ### Claim C5: polling stops exactly at terminal states -/

/-- Claim C5: in both polling loops, once a fetched status is 'completed'
or 'failed' the interval is cleared and no further status request is
issued, and for every other fetched status polling continues at the fixed
interval (3000 ms default in the hook, 5000 ms in the component): over any
oracle of fetched statuses whose first terminal status is `s`, the loop
consumes exactly the non-terminal statuses before `s` and then `s`, and
over an oracle with no terminal status it never stops on its own. -/
theorem c5_polling_stops_at_terminal :
    (∀ (pre : List (Option String)) (s : Option String) (post : List (Option String)),
      (∀ x ∈ pre, hookFetchTerminal x = false) → hookFetchTerminal s = true →
      hookPollTrace (pre ++ s :: post) = pre ++ [s]) ∧
    (∀ l : List (Option String), (∀ x ∈ l, hookFetchTerminal x = false) →
      hookPollTrace l = l) ∧
    (∀ (pre : List String) (s : String) (post : List String),
      (∀ x ∈ pre, isTerminalStatus x = false) → isTerminalStatus s = true →
      componentPollTrace (pre ++ s :: post) = pre ++ [s]) ∧
    (∀ l : List String, (∀ x ∈ l, isTerminalStatus x = false) →
      componentPollTrace l = l) ∧
    hookPollIntervalDefault = 3000 ∧ componentPollInterval = 5000 := by
  refine ⟨?_, ?_, ?_, ?_, rfl, rfl⟩
  · intro pre s post
    induction pre with
    | nil =>
        intro _ hs
        simp [hookPollTrace, hs]
    | cons a t ih =>
        intro hpre hs
        have ha : hookFetchTerminal a = false := hpre a (List.mem_cons_self _ _)
        have h2 := ih (fun x hx => hpre x (List.mem_cons_of_mem _ hx)) hs
        simp [hookPollTrace, ha, h2]
  · intro l
    induction l with
    | nil => intro _; rfl
    | cons a t ih =>
        intro hl
        have ha : hookFetchTerminal a = false := hl a (List.mem_cons_self _ _)
        have h2 := ih (fun x hx => hl x (List.mem_cons_of_mem _ hx))
        simp [hookPollTrace, ha, h2]
  · intro pre s post
    induction pre with
    | nil =>
        intro _ hs
        simp [componentPollTrace, hs]
    | cons a t ih =>
        intro hpre hs
        have ha : isTerminalStatus a = false := hpre a (List.mem_cons_self _ _)
        have h2 := ih (fun x hx => hpre x (List.mem_cons_of_mem _ hx)) hs
        simp [componentPollTrace, ha, h2]
  · intro l
    induction l with
    | nil => intro _; rfl
    | cons a t ih =>
        intro hl
        have ha : isTerminalStatus a = false := hl a (List.mem_cons_self _ _)
        have h2 := ih (fun x hx => hl x (List.mem_cons_of_mem _ hx))
        simp [componentPollTrace, ha, h2]

/-- Witness for C5 at concrete status oracles containing a terminal
status. -/
theorem c5_witness :
    hookPollTrace [some "running", some "completed", some "running"] =
      [some "running", some "completed"] ∧
    componentPollTrace ["pending", "failed", "running"] = ["pending", "failed"] := by
  have h := c5_polling_stops_at_terminal
  exact ⟨h.1 [some "running"] (some "completed") [some "running"] (by decide) (by decide),
         h.2.2.1 ["pending"] "failed" ["running"] (by decide) (by decide)⟩

/- ### Claim C6: the gateway strips exactly the mount and nothing else -/

/-- Claim C6: the gateway forwards every request under `/api/v1/source-code`
verbatim: the proxy path resolver deletes a leading `/api/v1/source-code`
from the URL (preserving the remaining path and query string exactly),
leaves every URL without that leading mount unchanged, and alters nothing
else about the request (method and body pass through); the default
configured base URL is `http://source-code-service:8000`. -/
theorem c6_gateway_path_resolution :
    (∀ (r : HttpRequest) (rest : List Char), r.url = sourceCodeMount ++ rest →
      gatewayForward r = { r with url := rest }) ∧
    (∀ r : HttpRequest, sourceCodeMount.isPrefixOf r.url = false →
      gatewayForward r = r) ∧
    (∀ r : HttpRequest,
      (gatewayForward r).method = r.method ∧ (gatewayForward r).body = r.body) ∧
    (∀ u : List Char, proxyReqPathResolver (sourceCodeMount ++ u) = u) ∧
    sourceCodeServiceUrl none = "http://source-code-service:8000" := by
  have key : ∀ u : List Char, proxyReqPathResolver (sourceCodeMount ++ u) = u := by
    intro u
    unfold proxyReqPathResolver
    have hp : sourceCodeMount.isPrefixOf (sourceCodeMount ++ u) = true := by
      rw [List.isPrefixOf_iff_prefix]
      exact List.prefix_append _ _
    rw [if_pos hp]
    exact List.drop_left _ _
  refine ⟨?_, ?_, fun r => ⟨rfl, rfl⟩, key, rfl⟩
  · intro r rest hurl
    show ({ r with url := proxyReqPathResolver r.url } : HttpRequest) =
      { r with url := rest }
    rw [hurl, key]
  · intro r hnp
    show ({ r with url := proxyReqPathResolver r.url } : HttpRequest) = r
    unfold proxyReqPathResolver
    rw [if_neg (by simp [hnp])]

/-- Witness for C6 at a concrete request under the mount. -/
theorem c6_witness :
    gatewayForward ⟨"GET", "/api/v1/source-code/health?x=1".toList, ""⟩ =
      ⟨"GET", "/health?x=1".toList, ""⟩ :=
  c6_gateway_path_resolution.1 ⟨"GET", "/api/v1/source-code/health?x=1".toList, ""⟩
    "/health?x=1".toList rfl

/- ### Claim C8: the two-selection invariant of the history page -/

/-- Claim C8: the comparison selection always has length at most 2 and
`toggleAnalysisSelection` preserves this invariant under every input:
toggling a selected id removes it, toggling a new id appends it when fewer
than 2 are selected, and with 2 selected the new id replaces the older
selection; `handleCompare` navigates exactly when 2 are selected. -/
theorem c8_selection_invariant :
    (∀ (sel : List String) (i : String), sel.length ≤ 2 →
      (toggleAnalysisSelection sel i).length ≤ 2) ∧
    (∀ (sel : List String) (i : String), i ∈ sel →
      i ∉ toggleAnalysisSelection sel i) ∧
    (∀ (sel : List String) (i : String), i ∉ sel → sel.length < 2 →
      toggleAnalysisSelection sel i = sel ++ [i]) ∧
    (∀ (a b i : String), i ∉ [a, b] → toggleAnalysisSelection [a, b] i = [b, i]) ∧
    (∀ sel : List String, sel.length ≠ 2 → handleCompare sel = none) ∧
    (∀ sel : List String, sel.length = 2 →
      handleCompare sel =
        some ("/analysis/compare?ids=" ++ String.intercalate "," sel)) := by
  refine ⟨?_, ?_, ?_, ?_, ?_, ?_⟩
  · intro sel i h
    unfold toggleAnalysisSelection
    split_ifs with h1 h2
    · exact le_trans (List.length_filter_le _ _) h
    · simp only [List.length_append, List.length_singleton]
      omega
    · simp
  · intro sel i hm
    simp [toggleAnalysisSelection, hm]
  · intro sel i hm hl
    simp [toggleAnalysisSelection, hm, hl]
  · intro a b i hm
    have hl : ¬ ([a, b] : List String).length < 2 := by simp
    simp only [toggleAnalysisSelection, if_neg hm, if_neg hl]
    rfl
  · intro sel h
    simp [handleCompare, h]
  · intro sel h
    simp [handleCompare, h]

/-- Witness for C8 at concrete selections. -/
theorem c8_witness :
    (toggleAnalysisSelection ["a", "b"] "c").length ≤ 2 ∧
    toggleAnalysisSelection ["a", "b"] "c" = ["b", "c"] ∧
    handleCompare ["a"] = none := by
  have h := c8_selection_invariant
  exact ⟨h.1 ["a", "b"] "c" (by decide), h.2.2.2.1 "a" "b" "c" (by decide),
         h.2.2.2.2.1 ["a"] (by decide)⟩

/- ### Claim C4: the percentage formulas -/

/-- Claim C4: the percentage shown for a language equals its file count
divided by the document's `file_count`, times 100, rendered to one decimal
place, and it is 0 whenever the count or `file_count` is missing or zero
(the guarded branch never divides); the entries of `compareLanguages`
carry exactly these percentages; the chart tooltip and the
'Primary Language %' figure use the same formula with the sum of all
language counts as denominator. -/
theorem c4_percentage_formula :
    (∀ (d : AnalysisDoc) (lang : String), langCount d lang = 0 ∨ d.file_count = 0 →
      percentage d lang = 0) ∧
    (∀ (d : AnalysisDoc) (lang : String), langCount d lang ≠ 0 → d.file_count ≠ 0 →
      percentage d lang =
        toFixed1 (((langCount d lang : ℚ) / (d.file_count : ℚ)) * 100)) ∧
    (∀ d1 d2 : AnalysisDoc, ∀ e ∈ compareLanguages [d1, d2],
      e.percentages = (percentage d1 e.language, percentage d2 e.language)) ∧
    (∀ (dist : List (String × Nat)) (value : Nat), chartTotalFiles dist ≠ 0 →
      chartTooltipPercentage dist value =
        toFixed1 (((value : ℚ) / (chartTotalFiles dist : ℚ)) * 100)) ∧
    (∀ (dist : List (String × Nat)) (x : String × Nat) (t : List (String × Nat)),
      chartData dist = x :: t → chartTotalFiles dist ≠ 0 →
      primaryLanguagePercentage dist =
        toFixed1 (((x.2 : ℚ) / (chartTotalFiles dist : ℚ)) * 100)) := by
  refine ⟨?_, ?_, ?_, fun _ _ _ => rfl, ?_⟩
  · intro d lang h
    unfold percentage
    rw [if_pos h]
  · intro d lang h1 h2
    unfold percentage
    rw [if_neg (fun hc => hc.elim h1 h2)]
  · intro d1 d2 e he
    have heq : compareLanguages [d1, d2] =
        List.insertionSort langCmpLE ((unionLangs d1 d2).map (compareEntry d1 d2)) := rfl
    rw [heq] at he
    have hm := (List.perm_insertionSort langCmpLE _).mem_iff.mp he
    obtain ⟨lang, _, rfl⟩ := List.mem_map.mp hm
    rfl
  · intro dist x t hx _
    unfold primaryLanguagePercentage
    rw [hx]
    rfl

/-- Witness for C4 at the concrete document `docW1` and the languages
`"JS"` (present) and `"Go"` (absent). -/
theorem c4_witness :
    langCount docW1 "JS" ≠ 0 ∧ docW1.file_count ≠ 0 ∧
    percentage docW1 "JS" =
      toFixed1 (((langCount docW1 "JS" : ℚ) / (docW1.file_count : ℚ)) * 100) ∧
    percentage docW1 "Go" = 0 := by
  have h := c4_percentage_formula
  exact ⟨by decide, by decide, h.2.1 docW1 "JS" (by decide) (by decide),
         h.1 docW1 "Go" (Or.inl (by decide))⟩

/- ### Claim C2: the file-summaries set operations -/

/-- A document whose only file summary is the empty string. -/
def docEmptySummary1 : AnalysisDoc := ⟨0, 1, none, some [("a.js", "")]⟩

/-- A document with a non-empty summary for the same file. -/
def docEmptySummary2 : AnalysisDoc := ⟨0, 1, none, some [("a.js", "summary")]⟩

/-- Counterexample to C2 as stated: the filters test JS truthiness of the
summary value, not key presence, so a file whose summary in the first
document is the empty string lands both in the common-files list and in
the 'New Files' list — the three lists are not pairwise disjoint, and the
common list is not the key intersection. -/
theorem c2_counterexample :
    "a.js" ∈ commonFiles docEmptySummary1 docEmptySummary2 ∧
    "a.js" ∈ newFiles docEmptySummary1 docEmptySummary2 ∧
    "a.js" ∈ fsKeys docEmptySummary1 := by decide

theorem truthySummary_iff_mem (d : AnalysisDoc)
    (h : ∀ p ∈ fsEntries d, p.2 ≠ "") (f : String) :
    truthySummary d f = true ↔ f ∈ fsKeys d := by
  unfold truthySummary
  cases hl : (fsEntries d).lookup f with
  | none =>
      have hk : f ∉ fsKeys d := (lookup_eq_none_iff _ _).mp hl
      simp [hk]
  | some s =>
      have hmem : (f, s) ∈ fsEntries d := lookup_some_mem hl
      have hs : s ≠ "" := h _ hmem
      have hk : f ∈ fsKeys d := List.mem_map_of_mem Prod.fst hmem
      simp [hs, hk]

theorem truthySummary_eq_false_iff (d : AnalysisDoc)
    (h : ∀ p ∈ fsEntries d, p.2 ≠ "") (f : String) :
    truthySummary d f = false ↔ f ∉ fsKeys d := by
  rw [← truthySummary_iff_mem d h f]
  cases truthySummary d f <;> simp

/-- Claim C2 (amended): for every pair of analysis documents carrying
`code.file_summaries` maps all of whose summary values are non-empty
strings, the common-files list is exactly the keys of the first document
that also occur in the second, 'New Files' exactly the keys of the second
not in the first, 'Removed Files' exactly the keys of the first not in the
second; the three lists are pairwise disjoint and cover the union of the
two key sets; and the page displays at most 5 common files and at most 6
entries of each of the other two lists. (The unamended claim fails when a
summary value is the empty string, which the JS truthiness test treats as
absent — see the counterexample.) -/
theorem c2_file_sets_partition (d1 d2 : AnalysisDoc)
    (h1 : ∀ p ∈ fsEntries d1, p.2 ≠ "") (h2 : ∀ p ∈ fsEntries d2, p.2 ≠ "") :
    (∀ f, f ∈ commonFiles d1 d2 ↔ f ∈ fsKeys d1 ∧ f ∈ fsKeys d2) ∧
    (∀ f, f ∈ newFiles d1 d2 ↔ f ∈ fsKeys d2 ∧ f ∉ fsKeys d1) ∧
    (∀ f, f ∈ removedFiles d1 d2 ↔ f ∈ fsKeys d1 ∧ f ∉ fsKeys d2) ∧
    (commonFiles d1 d2).Disjoint (newFiles d1 d2) ∧
    (commonFiles d1 d2).Disjoint (removedFiles d1 d2) ∧
    (newFiles d1 d2).Disjoint (removedFiles d1 d2) ∧
    (∀ f, (f ∈ commonFiles d1 d2 ∨ f ∈ newFiles d1 d2 ∨ f ∈ removedFiles d1 d2) ↔
      (f ∈ fsKeys d1 ∨ f ∈ fsKeys d2)) ∧
    (commonFilesDisplayed d1 d2).length ≤ 5 ∧
    (newFilesDisplayed d1 d2).length ≤ 6 ∧
    (removedFilesDisplayed d1 d2).length ≤ 6 := by
  have t1 := truthySummary_iff_mem d1 h1
  have t2 := truthySummary_iff_mem d2 h2
  have t1f := truthySummary_eq_false_iff d1 h1
  have t2f := truthySummary_eq_false_iff d2 h2
  have hc : ∀ f, f ∈ commonFiles d1 d2 ↔ f ∈ fsKeys d1 ∧ f ∈ fsKeys d2 := by
    intro f
    simp [commonFiles, List.mem_filter, t2]
  have hn : ∀ f, f ∈ newFiles d1 d2 ↔ f ∈ fsKeys d2 ∧ f ∉ fsKeys d1 := by
    intro f
    simp [newFiles, List.mem_filter, t1f]
  have hr : ∀ f, f ∈ removedFiles d1 d2 ↔ f ∈ fsKeys d1 ∧ f ∉ fsKeys d2 := by
    intro f
    simp [removedFiles, List.mem_filter, t2f]
  refine ⟨hc, hn, hr, ?_, ?_, ?_, ?_, ?_, ?_, ?_⟩
  · intro f hf hg
    exact ((hn f).mp hg).2 ((hc f).mp hf).1
  · intro f hf hg
    exact ((hr f).mp hg).2 ((hc f).mp hf).2
  · intro f hf hg
    exact ((hn f).mp hf).2 ((hr f).mp hg).1
  · intro f
    rw [hc f, hn f, hr f]
    by_cases hf1 : f ∈ fsKeys d1 <;> by_cases hf2 : f ∈ fsKeys d2 <;> simp [hf1, hf2]
  · exact (List.length_take_le _ _)
  · exact (List.length_take_le _ _)
  · exact (List.length_take_le _ _)

/-- Witness for the amended C2 at the concrete documents `docW1`, `docW2`
(all summary values non-empty). -/
theorem c2_witness :
    (∀ p ∈ fsEntries docW1, p.2 ≠ "") ∧ (∀ p ∈ fsEntries docW2, p.2 ≠ "") ∧
    ("a.js" ∈ commonFiles docW1 docW2 ↔
      "a.js" ∈ fsKeys docW1 ∧ "a.js" ∈ fsKeys docW2) := by
  have h := c2_file_sets_partition docW1 docW2 (by decide) (by decide)
  exact ⟨by decide, by decide, h.1 "a.js"⟩
